import Mathlib

/-!
Verification development for `ai_cli` (src/src/main.rs): a command-line agent
that relays a user message to a chat-completion API, executes requested
terminal commands, and folds results back into a persisted conversation state.

The embedding below translates the Rust source into Lean:
  * `splitWhitespace` models Rust's `str::split_whitespace` (maximal runs of
    non-whitespace characters; empty tokens discarded).
  * `run_terminal_command` models the function of the same name
    (main.rs lines 223-259).  The Rust function can panic (the initial
    `parts.next().unwrap()`), so the model returns
    `Option (Except CmdError RunOutcome)` with `none` for the panic.
  * `processCalls` models the tool-call loop body (main.rs lines 166-199),
    `stepResponse` one iteration of the main `loop` (lines 142-217),
    `runLoop` / `mainModel` the loop plus the final `save_state`.
  * `log_event` models the audit logger (lines 261-295) over an abstract
    log-file state.
  * `serializeState` / `deserializeState` model the serde JSON document
    written by `save_state` (line 297) and read back by the load path
    (lines 97-99), at the JSON-AST level.
External effects (filesystem, home directory, subprocess execution, stdin)
are supplied by a `World` record and an explicit list of stdin lines.
-/

/-- Model of Rust `str::split_whitespace`: split into maximal runs of
non-whitespace characters, discarding empty tokens.  `acc` holds the
characters of the current token, in reverse. -/
def splitWSAux : List Char → List Char → List String
  | [], acc => if acc = [] then [] else [String.mk acc.reverse]
  | c :: cs, acc =>
    if c.isWhitespace then
      if acc = [] then splitWSAux cs []
      else String.mk acc.reverse :: splitWSAux cs []
    else splitWSAux cs (c :: acc)

def splitWhitespace (s : String) : List String :=
  splitWSAux s.data []

/-- `terminal_state` of the persisted `State` struct: the tracked working
directory (a `PathBuf` in the source, modelled as a string path). -/
structure TerminalState where
  cwd : String
deriving DecidableEq, Repr

/-- One entry of `state.messages` (`ChatCompletionRequestMessage`), restricted
to the four variants the program constructs or persists.  Assistant messages
pushed by the program always carry `tool_calls: None`, so no such field is
modelled.  Tool messages carry the `tool_call_id` they answer. -/
inductive Message
  | system (content : String)
  | user (content : String)
  | assistant (content : Option String)
  | tool (content : String) (tool_call_id : String)
deriving DecidableEq, Repr

/-- The persisted `State` struct: message history plus terminal state. -/
structure State where
  messages : List Message
  terminal_state : TerminalState
deriving DecidableEq, Repr

def pushMsg (st : State) (m : Message) : State :=
  { st with messages := st.messages ++ [m] }

/-- Result of one subprocess run (`std::process::Output`).
`exitCode = some c` models `ExitStatus` with exit code `c` (`success` iff
`c = 0`); `none` models termination by signal.  Each stream is `some s` when
its bytes decode to the UTF-8 string `s`, and `none` when `String::from_utf8`
would fail. -/
structure ProcOutput where
  exitCode : Option Int
  stdout : Option String
  stderr : Option String
deriving DecidableEq, Repr

def ProcOutput.success (o : ProcOutput) : Bool :=
  o.exitCode == some 0

/-- External collaborators of the program: the home directory lookup
(`dirs::home_dir()`), filesystem existence (`Path::exists`), and the shell
(`Command::new("sh").arg("-c").arg(cmd).current_dir(cwd).output()`, keyed by
command string and working directory). -/
structure World where
  homeDir : Option String
  pathExists : String → Bool
  runSh : String → String → ProcOutput

/-- Model of Rust `Path::is_absolute` on Unix: the path begins with `/`. -/
def pathIsAbsolute (p : String) : Bool :=
  p.data.head? == some '/'

/-- Resolution of an explicit `cd` argument (main.rs 232-236): absolute
paths are used as-is, relative paths are joined to the tracked cwd. -/
def resolveCd (st : State) (dir : String) : String :=
  if pathIsAbsolute dir then dir else st.terminal_state.cwd ++ "/" ++ dir

/-- Errors produced (as `anyhow` errors) by `run_terminal_command`. -/
inductive CmdError
  | noHomeDir
  | directoryNotFound (path : String)
  | utf8
deriving DecidableEq, Repr

/-- Successful result of `run_terminal_command`: the returned output string,
the (possibly updated) state, and whether a subprocess was spawned. -/
structure RunOutcome where
  output : String
  st : State
  spawned : Bool
deriving DecidableEq, Repr

/-- The `Debug`-formatted path in the message
`format!("Changed directory to: {:?}", path)`. -/
def cdMessage (p : String) : String :=
  "Changed directory to: \"" ++ p ++ "\""

/-- Model of `run_terminal_command` (main.rs 223-259).  Returns `none` when
the Rust code panics (`parts.next().unwrap()` on a command with no
whitespace-delimited token).  For `cd` no subprocess is spawned: `cd` with no
argument or with argument `~` resolves to the home directory (no existence
check); any other argument is resolved (absolute as-is, relative against the
tracked cwd) and checked for existence.  Other commands run through `sh -c`
in the tracked cwd; on success the stdout bytes are decoded, otherwise the
stderr bytes. -/
def run_terminal_command (w : World) (cmd : String) (st : State) :
    Option (Except CmdError RunOutcome) :=
  match splitWhitespace cmd with
  | [] => none
  | mainCmd :: rest =>
    some <|
      if mainCmd = "cd" then
        let dir := rest.headD "~"
        if dir = "~" then
          match w.homeDir with
          | none => .error .noHomeDir
          | some h =>
            .ok ⟨cdMessage h, { st with terminal_state := ⟨h⟩ }, false⟩
        else
          let absPath := resolveCd st dir
          if w.pathExists absPath then
            .ok ⟨cdMessage absPath, { st with terminal_state := ⟨absPath⟩ }, false⟩
          else
            .error (.directoryNotFound absPath)
      else
        let out := w.runSh cmd st.terminal_state.cwd
        match (if out.success then out.stdout else out.stderr) with
        | none => .error .utf8
        | some s => .ok ⟨s, st, true⟩

/-- A `ChatCompletionMessageToolCall` from the model response, with the
`function.arguments` JSON already parsed: `args = none` models a payload that
`serde_json::from_str::<HashMap<String, String>>` rejects, `args = some kvs`
the decoded string map. -/
structure ToolCall where
  id : String
  name : String
  args : Option (List (String × String))
deriving DecidableEq, Repr

/-- `HashMap::get` on the decoded argument map. -/
def lookupArg : List (String × String) → String → Option String
  | [], _ => none
  | (k, v) :: rest, key => if k = key then some v else lookupArg rest key

/-- Model of Rust `str::trim`: remove whitespace from both ends. -/
def rustTrim (s : String) : String :=
  String.mk (((s.data.dropWhile Char.isWhitespace).reverse.dropWhile Char.isWhitespace).reverse)

/-- Model of Rust `str::to_lowercase`: lowercase every character. -/
def rustToLowercase (s : String) : String :=
  String.mk (s.data.map Char.toLower)

/-- Audit events emitted through `log_event` during the turn loop. -/
inductive Event
  | userMsg (msg : String)
  | assistantToolCalls (calls : List ToolCall)
  | toolCanceled (cmd : String)
  | toolExecuted (result : String)
  | assistantReply (content : String)
deriving DecidableEq, Repr

/-- Errors that abort the run (propagate out of `main` via `?`), plus
`cmdPanic` for the panic of `run_terminal_command` and `scriptEnd` for
running past the modelled horizon of scripted responses. -/
inductive LoopError
  | argDecode
  | missingCommand
  | cmdPanic
  | cmd (e : CmdError)
  | noChoices
  | scriptEnd
deriving DecidableEq, Repr

/-- Output of processing the tool calls of one response: updated state,
audit events (in emission order), commands passed to `run_terminal_command`,
and the stdin lines not yet consumed. -/
structure ProcOut where
  st : State
  events : List Event
  execd : List String
  inputs : List String
deriving Repr

/-- Model of the `for call in tool_calls` loop (main.rs 168-199).  Calls whose
function name is not `"terminal"` are skipped entirely.  For a `terminal`
call the argument map is decoded and `command` extracted; with `--safe` one
stdin line is read (empty at end of input) and, unless it is `y` trimmed and
case-insensitively, a cancellation tool turn is appended and a
`tool_canceled` event logged without executing; otherwise the command runs
via `run_terminal_command`, its output is appended as a tool turn and a
`tool_executed` event logged. -/
def processCalls (w : World) (safe : Bool) :
    List ToolCall → List String → State → Except LoopError ProcOut
  | [], inputs, st => .ok ⟨st, [], [], inputs⟩
  | call :: rest, inputs, st =>
    if call.name = "terminal" then
      match call.args with
      | none => .error .argDecode
      | some args =>
        match lookupArg args "command" with
        | none => .error .missingCommand
        | some cmd =>
          let confirmed : Bool :=
            if safe then (rustToLowercase (rustTrim (inputs.headD "")) == "y") else true
          let inputs' := if safe then inputs.drop 1 else inputs
          if confirmed then
            match run_terminal_command w cmd st with
            | none => .error .cmdPanic
            | some (.error e) => .error (.cmd e)
            | some (.ok r) =>
              match processCalls w safe rest inputs' (pushMsg r.st (.tool r.output call.id)) with
              | .error e => .error e
              | .ok out =>
                .ok { out with
                        events := .toolExecuted r.output :: out.events,
                        execd := cmd :: out.execd }
          else
            match processCalls w safe rest inputs'
                (pushMsg st (.tool ("Command execution canceled: " ++ cmd) call.id)) with
            | .error e => .error e
            | .ok out => .ok { out with events := .toolCanceled cmd :: out.events }
    else
      processCalls w safe rest inputs st

/-- The single candidate message of a chat-completion response
(`choice.message`): optional text content and optional tool calls. -/
structure RespMessage where
  content : Option String
  tool_calls : Option (List ToolCall)
deriving Repr

/-- A chat-completion response: its list of choices (candidate messages). -/
structure Response where
  choices : List RespMessage
deriving Repr

/-- Outcome of one iteration of the main `loop`: either `done` (the `break`
in the no-tool-calls branch) or `next` (loop again with updated state). -/
inductive StepOut
  | done (st : State) (events : List Event)
  | next (st : State) (events : List Event) (execd : List String) (inputs : List String)
deriving Repr

/-- Model of one iteration body of the main `loop` after the candidate
message is in hand (main.rs 166-216).  `if let Some(tool_calls)` branches on
the `tool_calls` field being present, even when the list inside is empty;
only the `None` branch appends an assistant turn and breaks. -/
def stepResponse (w : World) (safe : Bool) (msg : RespMessage)
    (inputs : List String) (st : State) : Except LoopError StepOut :=
  match msg.tool_calls with
  | some calls =>
    match processCalls w safe calls inputs st with
    | .error e => .error e
    | .ok out => .ok (.next out.st (.assistantToolCalls calls :: out.events) out.execd out.inputs)
  | none =>
    .ok (.done (pushMsg st (.assistant msg.content)) [.assistantReply (msg.content.getD "")])

/-- Model of the main `loop` (main.rs 142-217) over a script of responses,
one response consumed per iteration.  An empty `choices` list aborts with
`noChoices` (`.first().ok_or(anyhow!("No choices returned"))?`); exhausting
the script ends the model's horizon with `scriptEnd`. -/
def runLoop (w : World) (safe : Bool) :
    List Response → List String → State → Except LoopError State
  | [], _, _ => .error .scriptEnd
  | resp :: rest, inputs, st =>
    match resp.choices.head? with
    | none => .error .noChoices
    | some msg =>
      match stepResponse w safe msg inputs st with
      | .error e => .error e
      | .ok (.done st' _) => .ok st'
      | .ok (.next st' _ _ inputs') => runLoop w safe rest inputs' st'

/-- JSON values, for the document written by `save_state`. -/
inductive JVal
  | null
  | str (s : String)
  | arr (xs : List JVal)
  | obj (fields : List (String × JVal))
deriving Repr

/-- Serde serialization of one message: an object tagged by `role`. -/
def serializeMessage : Message → JVal
  | .system c => .obj [("role", .str "system"), ("content", .str c)]
  | .user c => .obj [("role", .str "user"), ("content", .str c)]
  | .assistant c =>
    .obj [("role", .str "assistant"),
          ("content", match c with | none => .null | some s => .str s)]
  | .tool c id =>
    .obj [("role", .str "tool"), ("content", .str c), ("tool_call_id", .str id)]

/-- Serde serialization of the `State` struct, as written by
`save_state` (main.rs 297-301). -/
def serializeState (st : State) : JVal :=
  .obj [("messages", .arr (st.messages.map serializeMessage)),
        ("terminal_state", .obj [("cwd", .str st.terminal_state.cwd)])]

def lookupField : List (String × JVal) → String → Option JVal
  | [], _ => none
  | (k, v) :: rest, key => if k = key then some v else lookupField rest key

/-- Serde deserialization of one message, dispatching on the `role` tag, as
performed by the load path (main.rs 97-99). -/
def deserializeMessage : JVal → Option Message
  | .obj fs =>
    match lookupField fs "role" with
    | some (.str "system") =>
      match lookupField fs "content" with
      | some (.str c) => some (.system c)
      | _ => none
    | some (.str "user") =>
      match lookupField fs "content" with
      | some (.str c) => some (.user c)
      | _ => none
    | some (.str "assistant") =>
      match lookupField fs "content" with
      | some .null => some (.assistant none)
      | some (.str c) => some (.assistant (some c))
      | _ => none
    | some (.str "tool") =>
      match lookupField fs "content", lookupField fs "tool_call_id" with
      | some (.str c), some (.str id) => some (.tool c id)
      | _, _ => none
    | _ => none
  | _ => none

def deserializeMessages : List JVal → Option (List Message)
  | [] => some []
  | j :: rest =>
    match deserializeMessage j with
    | none => none
    | some m =>
      match deserializeMessages rest with
      | none => none
      | some ms => some (m :: ms)

/-- Serde deserialization of the persisted `State` document. -/
def deserializeState (j : JVal) : Option State :=
  match j with
  | .obj fs =>
    match lookupField fs "messages", lookupField fs "terminal_state" with
    | some (.arr ms), some (.obj ts) =>
      match deserializeMessages ms, lookupField ts "cwd" with
      | some msgs, some (.str cwd) => some ⟨msgs, ⟨cwd⟩⟩
      | _, _ => none
    | _, _ => none
  | _ => none

/-- Model of `main` after the user turn is appended: run the loop, and on
success persist the state with `save_state`; on error the persisted file is
left as it was (`save_state` at main.rs 219 is only reached on `Ok`). -/
def mainModel (w : World) (safe : Bool) (responses : List Response)
    (inputs : List String) (st : State) (file0 : Option JVal) :
    Except LoopError State × Option JVal :=
  match runLoop w safe responses inputs st with
  | .ok st' => (.ok st', some (serializeState st'))
  | .error e => (.error e, file0)

/-- The audit log file: whether it exists on disk, and its rows. -/
structure LogFile where
  present : Bool
  rows : List (List String)
deriving DecidableEq, Repr

/-- The header row the spec describes for the audit log. -/
def csvHeaderRow : List String :=
  ["timestamp", "event_type", "host", "correlation_id", "function", "details"]

/-- Model of `log_event` (main.rs 261-295).  The file is opened with
`OpenOptions::new().create(true).append(true)` — after which it exists — and
only then is `has_headers(!Path::new(LOG_FILE).exists())` evaluated, so
`has_headers` is always `false` and no header row is ever emitted (the model
is even generous: the real `csv::Writer::write_record` would not emit a
header row regardless of `has_headers`).  Every call in `main` passes
`tool_call = None`, so the correlation id and function columns are empty. -/
def log_event (timestamp host event_type details : String) (f : LogFile) : LogFile :=
  let opened : LogFile := { present := true, rows := f.rows }
  let hasHeaders : Bool := !opened.present
  { present := true,
    rows := opened.rows
            ++ (if hasHeaders then [csvHeaderRow] else [])
            ++ [[timestamp, event_type, host, "", "", details]] }

/-! ### Concrete fixtures used by witnesses and counterexamples -/

/-- A concrete world: home `/home/user`, only `/tmp` exists on disk, and the
shell always exits 0 with stdout `outW` and stderr `errW`. -/
def wW : World :=
  ⟨some "/home/user", fun p => p == "/tmp", fun _ _ => ⟨some 0, some "outW", some "errW"⟩⟩

/-- Like `wW` but the shell always exits 1. -/
def wErr : World :=
  ⟨some "/home/user", fun p => p == "/tmp", fun _ _ => ⟨some 1, some "outW", some "errW"⟩⟩

/-- A concrete starting state with empty history and cwd `/start`. -/
def stW : State := ⟨[], ⟨"/start"⟩⟩

/-- The tool-call id a message answers: `some id` for tool turns, `none`
for every other role. -/
def toolIdOf : Message → Option String
  | .tool _ id => some id
  | _ => none

/-! ### Helper lemmas -/

theorem run_terminal_command_messages (w : World) (cmd : String) (st : State)
    (r : RunOutcome) (h : run_terminal_command w cmd st = some (.ok r)) :
    r.st.messages = st.messages := by
  unfold run_terminal_command at h
  cases hs : splitWhitespace cmd with
  | nil => rw [hs] at h; simp at h
  | cons t rest =>
    rw [hs] at h
    simp only [Option.some.injEq] at h
    split at h <;> (try split at h) <;> (try split at h) <;>
      first
        | (rw [← h])
        | (injection h with h2; rw [← h2])
        | simp at h

theorem splitWSAux_eq_nil_iff (l acc : List Char) :
    splitWSAux l acc = [] ↔ (acc = [] ∧ ∀ c ∈ l, c.isWhitespace) := by
  induction l generalizing acc with
  | nil => simp [splitWSAux]
  | cons c cs ih =>
    simp only [splitWSAux]
    by_cases hw : c.isWhitespace
    · by_cases ha : acc = []
      · simp [hw, ha, ih, List.mem_cons]
      · simp [hw, ha]
    · simp [hw, ih, List.mem_cons]

theorem splitWhitespace_eq_nil_iff (s : String) :
    splitWhitespace s = [] ↔ ∀ c ∈ s.data, c.isWhitespace := by
  unfold splitWhitespace
  simp [splitWSAux_eq_nil_iff]

theorem deserializeMessage_serializeMessage (m : Message) :
    deserializeMessage (serializeMessage m) = some m := by
  cases m with
  | system c => rfl
  | user c => rfl
  | assistant c => cases c <;> rfl
  | tool c id => rfl

theorem deserializeMessages_roundtrip (ms : List Message) :
    deserializeMessages (ms.map serializeMessage) = some ms := by
  induction ms with
  | nil => rfl
  | cons m ms ih =>
    simp [deserializeMessages, deserializeMessage_serializeMessage, ih]

/-! ### Claims -/

/-- Claim C9: under the precondition that the command string contains at
least one non-whitespace character, the extraction of the first
whitespace-delimited token in `run_terminal_command` succeeds (the panic of
`parts.next().unwrap()`, modelled as `none`, is unreachable); for an empty or
all-whitespace command the function panics, so the precondition is
necessary. -/
theorem c9_first_token (w : World) (cmd : String) (st : State) :
    ((∃ c ∈ cmd.data, ¬ c.isWhitespace) → (run_terminal_command w cmd st).isSome)
    ∧ ((∀ c ∈ cmd.data, c.isWhitespace) → run_terminal_command w cmd st = none) := by
  constructor
  · rintro ⟨c, hc, hnw⟩
    unfold run_terminal_command
    cases h : splitWhitespace cmd with
    | nil => exact absurd (((splitWhitespace_eq_nil_iff cmd).1 h) c hc) hnw
    | cons t rest => simp
  · intro hall
    unfold run_terminal_command
    rw [(splitWhitespace_eq_nil_iff cmd).2 hall]

theorem c9_first_token_witness :
    (run_terminal_command wW "ls" stW).isSome
    ∧ run_terminal_command wW " " stW = none :=
  ⟨(c9_first_token wW "ls" stW).1 (by decide),
   (c9_first_token wW " " stW).2 (by decide)⟩

/-- Claim C5 (code bug): `log_event` never writes the header row.  The file
is opened with `create(true)` before `Path::exists` is consulted, so the
existence test always sees the file present and `has_headers` is always
false; even a first invocation against a non-existent log file appends only
the event row.  The spec's claim that the header is written once for a fresh
file is therefore not implemented. -/
theorem c5_no_header_written :
    (∀ ts host etype details f,
      log_event ts host etype details f =
        ⟨true, f.rows ++ [[ts, etype, host, "", "", details]]⟩)
    ∧ log_event "t0" "h0" "user" "hello" ⟨false, []⟩ =
        ⟨true, [["t0", "user", "h0", "", "", "hello"]]⟩
    ∧ csvHeaderRow ∉ (log_event "t0" "h0" "user" "hello" ⟨false, []⟩).rows := by
  refine ⟨fun ts host etype details f => by simp [log_event], by simp [log_event], by decide⟩

/-- Claim C6: a non-`cd` command whose subprocess exits with a non-zero
status and whose stderr bytes decode as UTF-8 makes `run_terminal_command`
return `Ok`: the non-zero outcome is surfaced as data (the stderr content) in
the returned string, not as an error. -/
theorem c6_nonzero_exit_ok (w : World) (cmd : String) (st : State)
    (t : String) (rest : List String) (c : Int) (s : String)
    (hsplit : splitWhitespace cmd = t :: rest) (ht : t ≠ "cd")
    (hcode : (w.runSh cmd st.terminal_state.cwd).exitCode = some c) (hc : c ≠ 0)
    (herr : (w.runSh cmd st.terminal_state.cwd).stderr = some s) :
    run_terminal_command w cmd st = some (.ok ⟨s, st, true⟩) := by
  unfold run_terminal_command
  rw [hsplit]
  have hsucc : (w.runSh cmd st.terminal_state.cwd).success = false := by
    simp [ProcOutput.success, hcode, hc]
  simp [ht, hsucc, herr]

theorem c6_nonzero_exit_ok_witness :
    run_terminal_command wErr "false" stW = some (.ok ⟨"errW", stW, true⟩) :=
  c6_nonzero_exit_ok wErr "false" stW "false" [] 1 "errW"
    (by decide) (by decide) rfl (by decide) rfl

/-- Claim C10: for a non-`cd` command, the string returned by
`run_terminal_command` is exactly the UTF-8-decoded stdout of the subprocess
when the exit status is a success, and exactly the UTF-8-decoded stderr
otherwise; the other stream and the numeric exit code do not appear in the
result. -/
theorem c10_output_selection (w : World) (cmd : String) (st : State)
    (t : String) (rest : List String)
    (hsplit : splitWhitespace cmd = t :: rest) (ht : t ≠ "cd") :
    (∀ s, (w.runSh cmd st.terminal_state.cwd).success = true →
       (w.runSh cmd st.terminal_state.cwd).stdout = some s →
       run_terminal_command w cmd st = some (.ok ⟨s, st, true⟩))
    ∧ (∀ s, (w.runSh cmd st.terminal_state.cwd).success = false →
       (w.runSh cmd st.terminal_state.cwd).stderr = some s →
       run_terminal_command w cmd st = some (.ok ⟨s, st, true⟩)) := by
  constructor
  · intro s hsucc hout
    unfold run_terminal_command
    rw [hsplit]
    simp [ht, hsucc, hout]
  · intro s hsucc herr
    unfold run_terminal_command
    rw [hsplit]
    simp [ht, hsucc, herr]

theorem c10_output_selection_witness :
    run_terminal_command wW "ls -la" stW = some (.ok ⟨"outW", stW, true⟩)
    ∧ run_terminal_command wErr "ls -la" stW = some (.ok ⟨"errW", stW, true⟩) :=
  ⟨(c10_output_selection wW "ls -la" stW "ls" ["-la"] (by decide) (by decide)).1
      "outW" rfl rfl,
   (c10_output_selection wErr "ls -la" stW "ls" ["-la"] (by decide) (by decide)).2
      "errW" rfl rfl⟩

/-- Claim C8: serializing a conversation state as `save_state` does and then
deserializing the written JSON document as the load path does yields a state
structurally equal to the one saved. -/
theorem c8_roundtrip (st : State) :
    deserializeState (serializeState st) = some st := by
  simp [serializeState, deserializeState, lookupField, deserializeMessages_roundtrip]

/-- Claim C1 (counterexample to the claim as stated): `cd` with no argument
resolves to the home directory and succeeds, changing `terminal_state.cwd`,
even though the resolved path does not exist on the (modelled) filesystem —
the home-directory branch performs no existence check, contradicting the
claim that a non-existent resolved target makes the call fail. -/
theorem c1_counterexample :
    run_terminal_command wW "cd" stW =
      some (.ok ⟨cdMessage "/home/user", ⟨[], ⟨"/home/user"⟩⟩, false⟩)
    ∧ wW.pathExists "/home/user" = false := by
  refine ⟨by rfl, by decide⟩

/-- Claim C1 (amended): for a command whose first whitespace-delimited
token is `cd`, no subprocess is spawned; with no argument or with argument
`~` the target is the home directory and the call succeeds (setting
`terminal_state.cwd`) whenever a home directory is determined, WITHOUT an
existence check, failing only when no home directory can be found; for an
explicit argument other than `~`, a relative argument is resolved against
the tracked `terminal_state.cwd` and an absolute one used as-is, and the
call succeeds (setting `cwd`) exactly when the resolved path exists,
otherwise failing with a directory-not-found error naming the resolved
path (the state is not updated on failure). -/
theorem c1_cd_resolution (w : World) (cmd : String) (st : State)
    (rest : List String) (hsplit : splitWhitespace cmd = "cd" :: rest) :
    (∀ r, run_terminal_command w cmd st = some (.ok r) → r.spawned = false)
    ∧ (rest.headD "~" = "~" → w.homeDir = none →
        run_terminal_command w cmd st = some (.error .noHomeDir))
    ∧ (∀ h, rest.headD "~" = "~" → w.homeDir = some h →
        run_terminal_command w cmd st =
          some (.ok ⟨cdMessage h, { st with terminal_state := ⟨h⟩ }, false⟩))
    ∧ (∀ dir, rest.headD "~" = dir → dir ≠ "~" → w.pathExists (resolveCd st dir) = true →
        run_terminal_command w cmd st =
          some (.ok ⟨cdMessage (resolveCd st dir),
                     { st with terminal_state := ⟨resolveCd st dir⟩ }, false⟩))
    ∧ (∀ dir, rest.headD "~" = dir → dir ≠ "~" → w.pathExists (resolveCd st dir) = false →
        run_terminal_command w cmd st =
          some (.error (.directoryNotFound (resolveCd st dir)))) := by
  unfold run_terminal_command
  rw [hsplit]
  simp only [List.headD_eq_head?_getD, Option.some.injEq, eq_self_iff_true, if_true]
  refine ⟨?_, ?_, ?_, ?_, ?_⟩
  · intro r hr
    split at hr
    · split at hr
      · simp at hr
      · injection hr with h
        rw [← h]
    · split at hr
      · injection hr with h
        rw [← h]
      · simp at hr
  · intro hd hh
    simp [hd, hh]
  · intro h hd hh
    simp [hd, hh]
  · intro dir hd hne hex
    subst hd
    simp [hne, hex]
  · intro dir hd hne hex
    subst hd
    simp [hne, hex]

theorem c1_cd_resolution_witness :
    run_terminal_command wW "cd /tmp" stW =
      some (.ok ⟨cdMessage "/tmp", ⟨[], ⟨"/tmp"⟩⟩, false⟩)
    ∧ run_terminal_command wW "cd missing" stW =
      some (.error (.directoryNotFound "/start/missing")) := by
  constructor
  · exact (c1_cd_resolution wW "cd /tmp" stW ["/tmp"] (by decide)).2.2.2.1
      "/tmp" rfl (by decide) (by decide)
  · exact (c1_cd_resolution wW "cd missing" stW ["missing"] (by decide)).2.2.2.2
      "missing" rfl (by decide) (by decide)

/-- Claim C2: with the safety gate enabled, for a pending `terminal`
ToolCall whose decoded arguments supply the command `cmd`: if the stdin
line, trimmed and lowercased, is not `y`, the command is not executed —
processing of this call reduces to appending a tool turn
`Command execution canceled: cmd` carrying the call's id and logging a
`tool_canceled` event (no `run_terminal_command` invocation, no addition to
the executed-command trace); if the line is an affirmative `y`, execution
proceeds through `run_terminal_command`. -/
theorem c2_safety_gate (w : World) (call : ToolCall) (rest : List ToolCall)
    (r : String) (inputs : List String) (st : State)
    (args : List (String × String)) (cmd : String)
    (hname : call.name = "terminal") (hargs : call.args = some args)
    (hcmd : lookupArg args "command" = some cmd) :
    (rustToLowercase (rustTrim r) ≠ "y" →
      processCalls w true (call :: rest) (r :: inputs) st =
        (match processCalls w true rest inputs
            (pushMsg st (.tool ("Command execution canceled: " ++ cmd) call.id)) with
         | .error e => .error e
         | .ok out => .ok { out with events := .toolCanceled cmd :: out.events }))
    ∧ (rustToLowercase (rustTrim r) = "y" →
      processCalls w true (call :: rest) (r :: inputs) st =
        (match run_terminal_command w cmd st with
         | none => .error .cmdPanic
         | some (.error e) => .error (.cmd e)
         | some (.ok res) =>
           match processCalls w true rest inputs
               (pushMsg res.st (.tool res.output call.id)) with
           | .error e => .error e
           | .ok out => .ok { out with
                                events := .toolExecuted res.output :: out.events,
                                execd := cmd :: out.execd })) := by
  constructor
  · intro hr
    simp [processCalls, hname, hargs, hcmd, hr]
  · intro hr
    simp [processCalls, hname, hargs, hcmd, hr]

theorem c2_safety_gate_witness :
    processCalls wW true [⟨"id1", "terminal", some [("command", "ls")]⟩] ["n"] stW =
      .ok ⟨⟨[.tool "Command execution canceled: ls" "id1"], ⟨"/start"⟩⟩,
           [.toolCanceled "ls"], [], []⟩
    ∧ processCalls wW true [⟨"id1", "terminal", some [("command", "ls")]⟩] ["Y"] stW =
      .ok ⟨⟨[.tool "outW" "id1"], ⟨"/start"⟩⟩, [.toolExecuted "outW"], ["ls"], []⟩ := by
  constructor
  · exact ((c2_safety_gate wW ⟨"id1", "terminal", some [("command", "ls")]⟩ [] "n" [] stW
      [("command", "ls")] "ls" rfl rfl rfl).1 (by decide)).trans (by rfl)
  · exact ((c2_safety_gate wW ⟨"id1", "terminal", some [("command", "ls")]⟩ [] "Y" [] stW
      [("command", "ls")] "ls" rfl rfl rfl).2 (by decide)).trans (by rfl)

/-- Claim C3 (counterexample to the claim as stated): a response that
carries zero tool calls — its `tool_calls` field is present but the list is
empty — does not terminate the loop and appends no assistant turn: the
iteration yields `next` with the state unchanged (messages still empty). -/
theorem c3_counterexample :
    stepResponse wW false ⟨some "hi", some []⟩ [] stW =
      .ok (.next stW [.assistantToolCalls []] [] [])
    ∧ stW.messages = [] :=
  ⟨rfl, rfl⟩

/-- Claim C3 (amended): if the response's `tool_calls` field is absent
(`None`), the iteration appends exactly one assistant plain-text turn and
terminates the loop (`done`), and this is the only way an iteration yields
`done` — when the field is present (even with an empty list) the iteration,
if it succeeds, yields `next` and the loop issues another model round. -/
theorem c3_termination (w : World) (safe : Bool) (msg : RespMessage)
    (inputs : List String) (st : State) :
    (msg.tool_calls = none →
      stepResponse w safe msg inputs st =
        .ok (.done (pushMsg st (.assistant msg.content))
              [.assistantReply (msg.content.getD "")]))
    ∧ (∀ st' evs, stepResponse w safe msg inputs st = .ok (.done st' evs) →
        msg.tool_calls = none ∧ st' = pushMsg st (.assistant msg.content))
    ∧ (∀ (rest : List Response) (resp : Response),
        resp.choices.head? = some msg → msg.tool_calls = none →
        runLoop w safe (resp :: rest) inputs st =
          .ok (pushMsg st (.assistant msg.content))) := by
  refine ⟨?_, ?_, ?_⟩
  · intro h
    simp [stepResponse, h]
  · intro st' evs h
    cases htc : msg.tool_calls with
    | none =>
      simp [stepResponse, htc] at h
      exact ⟨rfl, h.1.symm⟩
    | some calls =>
      simp [stepResponse, htc] at h
      cases hpc : processCalls w safe calls inputs st with
      | error e => rw [hpc] at h; simp at h
      | ok out => rw [hpc] at h; simp at h
  · intro rest resp hhead htc
    simp [runLoop, hhead, stepResponse, htc]

theorem c3_termination_witness :
    stepResponse wW false ⟨some "hi", none⟩ [] stW =
      .ok (.done ⟨[.assistant (some "hi")], ⟨"/start"⟩⟩ [.assistantReply "hi"])
    ∧ runLoop wW false [⟨[⟨some "hi", none⟩]⟩] [] stW =
      .ok ⟨[.assistant (some "hi")], ⟨"/start"⟩⟩ := by
  constructor
  · exact ((c3_termination wW false ⟨some "hi", none⟩ [] stW).1 rfl).trans (by rfl)
  · exact ((c3_termination wW false ⟨some "hi", none⟩ [] stW).2.2
      [] ⟨[⟨some "hi", none⟩]⟩ rfl rfl).trans (by rfl)

/-- Claim C4 (counterexample to the claim as stated): a response carrying a
ToolCall whose function name is not `terminal` (here `foo`) is processed
successfully and the loop proceeds to the next model round, yet no tool turn
answering that call's id is appended — the state's message list is unchanged
(still empty). -/
theorem c4_counterexample :
    stepResponse wW false ⟨none, some [⟨"id9", "foo", some [("command", "ls")]⟩]⟩ [] stW =
      .ok (.next stW [.assistantToolCalls [⟨"id9", "foo", some [("command", "ls")]⟩]] [] [])
    ∧ stW.messages = [] :=
  ⟨rfl, rfl⟩

/-- Claim C4 (amended): whenever processing of a response's tool calls
completes successfully (so the loop proceeds to the next model call), the
messages appended to the conversation state are exactly one tool turn per
ToolCall whose function name is `terminal`, in order, each referencing that
call's id; calls with any other function name receive no answering turn. -/
theorem c4_tool_turns (w : World) (safe : Bool) (calls : List ToolCall) :
    ∀ (inputs : List String) (st : State) (out : ProcOut),
      processCalls w safe calls inputs st = .ok out →
      ∃ suffix, out.st.messages = st.messages ++ suffix ∧
        suffix.map toolIdOf =
          (calls.filter (fun c => c.name = "terminal")).map (fun c => some c.id) := by
  induction calls with
  | nil =>
    intro inputs st out h
    simp only [processCalls] at h
    injection h with h2
    refine ⟨[], ?_, ?_⟩
    · rw [← h2]; simp
    · simp
  | cons call rest ih =>
    intro inputs st out h
    simp only [processCalls] at h
    by_cases hname : call.name = "terminal"
    · rw [if_pos hname] at h
      cases hargs : call.args with
      | none => simp only [hargs] at h; simp at h
      | some args =>
        simp only [hargs] at h
        cases hcmd : lookupArg args "command" with
        | none => simp only [hcmd] at h; simp at h
        | some cmd =>
          simp only [hcmd] at h
          generalize hconf : (if safe = true then rustToLowercase (rustTrim (inputs.headD "")) == "y" else true) = conf at h
          generalize hinp : (if safe = true then inputs.drop 1 else inputs) = inputs2 at h
          cases conf with
          | true =>
            rw [if_pos rfl] at h
            cases hrun : run_terminal_command w cmd st with
            | none => simp only [hrun] at h; simp at h
            | some res =>
              cases res with
              | error e => simp only [hrun] at h; simp at h
              | ok r =>
                simp only [hrun] at h
                cases hrec : processCalls w safe rest inputs2
                    (pushMsg r.st (.tool r.output call.id)) with
                | error e => simp only [hrec] at h; simp at h
                | ok out1 =>
                  simp only [hrec] at h
                  injection h with h2
                  obtain ⟨suffix1, hmsg, hmap⟩ := ih _ _ _ hrec
                  refine ⟨.tool r.output call.id :: suffix1, ?_, ?_⟩
                  · rw [← h2]
                    rw [hmsg, pushMsg, run_terminal_command_messages w cmd st r hrun]
                    simp
                  · simp [toolIdOf, hmap, List.filter_cons, hname]
          | false =>
            rw [if_neg (by simp)] at h
            cases hrec : processCalls w safe rest inputs2
                (pushMsg st (.tool ("Command execution canceled: " ++ cmd) call.id)) with
            | error e => simp only [hrec] at h; simp at h
            | ok out1 =>
              simp only [hrec] at h
              injection h with h2
              obtain ⟨suffix1, hmsg, hmap⟩ := ih _ _ _ hrec
              refine ⟨.tool ("Command execution canceled: " ++ cmd) call.id :: suffix1, ?_, ?_⟩
              · rw [← h2]
                rw [hmsg, pushMsg]
                simp
              · simp [toolIdOf, hmap, List.filter_cons, hname]
    · rw [if_neg hname] at h
      obtain ⟨suffix, hmsg, hmap⟩ := ih _ _ _ h
      refine ⟨suffix, hmsg, ?_⟩
      simp [List.filter_cons, hname, hmap]

theorem c4_tool_turns_witness :
    ∃ suffix,
      (⟨[.tool "outW" "id1"], ⟨"/start"⟩⟩ : State).messages = stW.messages ++ suffix ∧
      suffix.map toolIdOf =
        (([⟨"id1", "terminal", some [("command", "ls")]⟩] : List ToolCall).filter
            (fun c => c.name = "terminal")).map (fun c => some c.id) :=
  c4_tool_turns wW false [⟨"id1", "terminal", some [("command", "ls")]⟩] []
    stW ⟨⟨[.tool "outW" "id1"], ⟨"/start"⟩⟩, [.toolExecuted "outW"], ["ls"], []⟩ (by rfl)

/-- Claim C7: if the completion endpoint returns an empty candidate list for
the round being processed, the run aborts with the no-choices error and the
persisted state file is left unchanged; more generally, on any loop error
`save_state` is never reached, so the persisted document stays what it
was. -/
theorem c7_no_choices_aborts (w : World) (safe : Bool) (inputs : List String)
    (st : State) (file0 : Option JVal) :
    (∀ rest : List Response,
      mainModel w safe (⟨[]⟩ :: rest) inputs st file0 = (.error .noChoices, file0))
    ∧ (∀ (responses : List Response) (e : LoopError),
        runLoop w safe responses inputs st = .error e →
        mainModel w safe responses inputs st file0 = (.error e, file0)) := by
  constructor
  · intro rest
    simp [mainModel, runLoop]
  · intro responses e h
    simp [mainModel, h]

theorem c7_no_choices_aborts_witness :
    mainModel wW false [⟨[]⟩] [] stW (some (.str "prior")) =
      (.error .noChoices, some (.str "prior")) :=
  (c7_no_choices_aborts wW false [] stW (some (.str "prior"))).2 [⟨[]⟩] .noChoices (by rfl)
